import Mathlib

/-!
Verification of the MathMaster answer-evaluation and adaptive-scoring engine
(`game.py`), shallowly embedded in Lean 4.

Modelling conventions:
* Python strings are `String` / `List Char`; Python `str.strip` is `pyStripL`,
  with `pyIsSpace` covering the Unicode whitespace set recognised by
  `str.isspace`, by `int`/`float` parsing and by the `fractions` string
  grammar (the regex classes there use the same underlying character test).
* Python `int(...)`, `float(...)` and `fractions.Fraction(...)` string parsing
  are embedded as `Option`-valued parsers; an exception corresponds to `none`.
  The digit grammars accept PEP 515 single underscores between digits
  (`underDigits?`).  Digits are ASCII; non-ASCII (locale) digit forms are
  outside the specification's scope, which excludes locale-aware number
  parsing.
* Python floats are modelled as the exact rational values of IEEE-754
  binary64 doubles: `fpRound` is round-to-nearest, ties-to-even, with gradual
  underflow below `2 ^ (-1022)` (subnormal quantum `2 ^ (-1074)`) and no upper
  clamp.  `float(s)` parses the decimal text exactly and rounds (`pyFloatL?`);
  each arithmetic operation rounds its exact rational result (`fpAdd`,
  `fpSub`, `fpMul`, `fpDiv`), as IEEE arithmetic does.
* A float of magnitude at least `2 ^ 1024` (Python `inf`), and the literal
  `inf`/`nan` word forms, are mapped to `none`.  This is outcome-equivalent
  inside `check_answer`: `Fraction(float(s))` on an infinity raises
  `OverflowError` (and on NaN `ValueError`), which the handlers route to the
  same result that the failed-parse path produces, and the
  `abs(a - b) < 0.001` test is false whenever either operand is infinite or
  the difference is NaN.
* The int-to-float conversion in the streak bonus is `fpRound` of the
  integer value (for integers beyond the double range CPython would raise
  `OverflowError`; a streak counter of that size is unreachable, as streaks
  grow by one per round from zero).
* Inside the comparator and the scorer, rational values are built with
  `mkRat` / `Rat.divInt` and combined with the helper operations `qneg`,
  `qadd`, `qsub`, `qmul`, `qdiv`, `qabs`.  These compute on the
  numerator/denominator representation; the lemmas `qneg_eq`, `qadd_eq`,
  `qsub_eq`, `qmul_eq`, `qdiv_eq`, `qabs_eq` prove they agree with the
  mathematical operations on `ℚ`.
* Python `int(x)` applied to a float truncates toward zero (`pyTrunc`).
* Exceptions absorbed by a `try`/`except` correspond to `Option.none` flowing
  to the next strategy of the comparator.
-/

set_option maxRecDepth 8192

/-- Negation of a rational, computed on the representation. -/

def qneg (x : ℚ) : ℚ := Rat.divInt (-x.num) x.den

/-- Difference of two rationals, computed on the representation. -/
def qsub (x y : ℚ) : ℚ := Rat.divInt (x.num * y.den - y.num * x.den) (x.den * y.den)

/-- Sum of two rationals, computed on the representation. -/
def qadd (x y : ℚ) : ℚ := Rat.divInt (x.num * y.den + y.num * x.den) (x.den * y.den)

/-- Product of two rationals, computed on the representation. -/
def qmul (x y : ℚ) : ℚ := Rat.divInt (x.num * y.num) (x.den * y.den)

/-- Quotient of two rationals, computed on the representation. -/
def qdiv (x y : ℚ) : ℚ := Rat.divInt (x.num * y.den) (y.num * x.den)

/-- Absolute value of a rational, computed on the representation. -/
def qabs (x : ℚ) : ℚ := if x < 0 then qneg x else x

/-! ### IEEE-754 binary64 rounding

Python floats are doubles.  `fpRound` maps an exact rational to the value of
the nearest double (ties to even), with gradual underflow; results of
magnitude `2 ^ 1024` or more correspond to Python's `inf` and are screened
out by the consumers below. -/
/-- Fuel-driven binary length: `bitLenAux n n` is the number of binary digits
of `n` (0 for 0). -/
def bitLenAux : Nat → Nat → Nat
  | 0, _ => 0
  | fuel + 1, n => if n = 0 then 0 else bitLenAux fuel (n / 2) + 1

/-- Number of binary digits of `n`. -/
def bitLen (n : Nat) : Nat := bitLenAux n n

/-- Whether `a / b < 2 ^ j` for naturals `a`, `b` (with `b ≠ 0`) and an
integer exponent `j`. -/
def ratLtTwoPow (a b : Nat) (j : Int) : Bool :=
  if 0 ≤ j then decide (a < b * 2 ^ j.toNat) else decide (a * 2 ^ (-j).toNat < b)

/-- Round a nonnegative rational to the nearest binary64 value (ties to
even), with the subnormal quantum `2 ^ (-1074)` and no upper clamp. -/
def fpRoundPos (q : ℚ) : ℚ :=
  let a := q.num.toNat
  let b := q.den
  if a = 0 then 0
  else
    let j0 : Int := (bitLen a : Int) - (bitLen b : Int)
    let k : Int := if ratLtTwoPow a b j0 then j0 - 1 else j0
    let e : Int := if k - 52 < -1074 then -1074 else k - 52
    let N := if 0 ≤ e then a else a * 2 ^ (-e).toNat
    let D := if 0 ≤ e then b * 2 ^ e.toNat else b
    let m := N / D
    let r := N % D
    let m' := if 2 * r < D then m
      else if D < 2 * r then m + 1
      else if m % 2 = 0 then m else m + 1
    if 0 ≤ e then ((m' * 2 ^ e.toNat : Nat) : ℚ) else mkRat (m' : Int) (2 ^ (-e).toNat)

/-- Round a rational to the nearest binary64 value. -/
def fpRound (q : ℚ) : ℚ := if q < 0 then qneg (fpRoundPos (qneg q)) else fpRoundPos q

/-- Double addition: round the exact sum. -/
def fpAdd (x y : ℚ) : ℚ := fpRound (qadd x y)

/-- Double subtraction: round the exact difference. -/
def fpSub (x y : ℚ) : ℚ := fpRound (qsub x y)

/-- Double multiplication: round the exact product. -/
def fpMul (x y : ℚ) : ℚ := fpRound (qmul x y)

/-- Double division: round the exact quotient. -/
def fpDiv (x y : ℚ) : ℚ := fpRound (qdiv x y)

/-- Python `max(a, b)`: `b` when `a < b`, else `a`. -/
def pyMax (x y : ℚ) : ℚ := if x < y then y else x

/-- The double written `0.1` in game.py line 78. -/
def tenth_fp : ℚ := fpRound (mkRat 1 10)

/-- The double written `0.001` in game.py line 291. -/
def tol_fp : ℚ := fpRound (mkRat 1 1000)

/-- The first magnitude beyond the double range: values that round to at
least this are Python's `inf`. -/
def FLOAT_MAX_BOUND : ℚ := ((2 ^ 1024 : ℕ) : ℚ)

/-- The Unicode whitespace characters recognised by Python's `str.strip`,
`int`, `float` and the `fractions` string grammar (code points with
bidirectional class WS, B or S or category Zs). -/
def pyIsSpace (c : Char) : Bool :=
  let n := c.toNat
  decide ((9 ≤ n ∧ n ≤ 13) ∨ n = 28 ∨ n = 29 ∨ n = 30 ∨ n = 31 ∨ n = 32 ∨
    n = 133 ∨ n = 160 ∨ n = 5760 ∨ (8192 ≤ n ∧ n ≤ 8202) ∨ n = 8232 ∨
    n = 8233 ∨ n = 8239 ∨ n = 8287 ∨ n = 12288)

/-- Model of Python `str.strip()`: drop whitespace from both ends. -/
def pyStripL (cs : List Char) : List Char :=
  ((cs.dropWhile pyIsSpace).reverse.dropWhile pyIsSpace).reverse

/-- Model of the Python test `"/" in s`. -/
def hasSlash (cs : List Char) : Bool := cs.any (fun c => c == '/')

/-- Model of Python `s.split("/")`. -/
def splitOnSlash : List Char → List (List Char)
  | [] => [[]]
  | x :: xs =>
    if x == '/' then [] :: splitOnSlash xs
    else
      match splitOnSlash xs with
      | [] => [[x]]
      | h :: t => (x :: h) :: t

/-- Numeric value of a list of decimal digit characters (most significant first). -/
def digitsValL (cs : List Char) : Nat :=
  cs.foldl (fun a c => a * 10 + (c.toNat - 48)) 0

/-- After an initial digit, Python's number grammars accept further digits
and single underscores each followed by a digit (PEP 515): this checks the
remainder of such a digit run. -/
def groupRest : List Char → Bool
  | [] => true
  | c :: r =>
    if c == '_' then
      match r with
      | [] => false
      | d :: r2 => d.isDigit && groupRest r2
    else c.isDigit && groupRest r

/-- A nonempty digit string with optional single underscores between digits,
as accepted by `int`, `float` and `Fraction` parsing. -/
def isUnderDigits (cs : List Char) : Bool :=
  match cs with
  | [] => false
  | c :: r => c.isDigit && groupRest r

/-- Numeric value of an underscore-grouped digit string: the underscores are
ignored. -/
def underDigitsVal (cs : List Char) : Nat := digitsValL (cs.filter Char.isDigit)

/-- Parse an underscore-grouped digit string; `none` otherwise. -/
def underDigits? (cs : List Char) : Option Nat :=
  if isUnderDigits cs then some (underDigitsVal cs) else none

/-- Parse an optional sign followed by underscore-grouped digits (the shape
accepted by Python `int` after stripping). -/
def signedUnderDigits? (cs : List Char) : Option Int :=
  match cs with
  | [] => none
  | c :: r =>
    if c == '-' then (underDigits? r).map (fun n : Nat => -(n : Int))
    else if c == '+' then (underDigits? r).map (fun n : Nat => (n : Int))
    else (underDigits? cs).map (fun n : Nat => (n : Int))

/-- Model of Python `int(s)` on a string: strip, then sign and digits. -/
def pyIntL? (cs : List Char) : Option Int :=
  signedUnderDigits? (pyStripL cs)

/-- Mantissa of a Python float literal: `digits`, `digits.digits`, `.digits`
or `digits.`, each digit part underscore-grouped; its exact value is returned
as a numerator/denominator pair, together with the unread suffix. -/
def mantissa? (cs : List Char) : Option ((Nat × Nat) × List Char) :=
  let ip := cs.takeWhile (fun c => c.isDigit || c == '_')
  let r1 := cs.dropWhile (fun c => c.isDigit || c == '_')
  if !(ip.isEmpty || isUnderDigits ip) then none
  else
    match r1 with
    | '.' :: r2 =>
      let fp := r2.takeWhile (fun c => c.isDigit || c == '_')
      let r3 := r2.dropWhile (fun c => c.isDigit || c == '_')
      if !(fp.isEmpty || isUnderDigits fp) then none
      else if ip.isEmpty && fp.isEmpty then none
      else
        let fpd := fp.filter Char.isDigit
        some ((underDigitsVal ip * 10 ^ fpd.length + digitsValL fpd,
          10 ^ fpd.length), r3)
    | _ =>
      if ip.isEmpty then none else some ((underDigitsVal ip, 1), r1)

/-- Exponent suffix of a Python float literal: empty, or `e`/`E` followed by
an optionally signed underscore-grouped digit string, applied to the
mantissa pair `m`. -/
def expVal? (m : Nat × Nat) (cs : List Char) : Option (Nat × Nat) :=
  match cs with
  | [] => some m
  | e :: rest =>
    if e == 'e' || e == 'E' then
      match rest with
      | '-' :: r2 => (underDigits? r2).map (fun k => (m.1, m.2 * 10 ^ k))
      | '+' :: r2 => (underDigits? r2).map (fun k => (m.1 * 10 ^ k, m.2))
      | r2 => (underDigits? r2).map (fun k => (m.1 * 10 ^ k, m.2))
    else none

/-- Exact rational value of a Python float literal without its sign. -/
def pyFloatExact? (cs : List Char) : Option ℚ :=
  match mantissa? cs with
  | none => none
  | some (m, rest) => (expVal? m rest).map (fun p => mkRat p.1 p.2)

/-- Model of Python `float(s)` on a string: strip, sign, exact decimal value,
then rounding to the nearest double; `none` models a `ValueError`.  The
`inf`/`nan` word forms and decimals that round beyond the double range
(Python's `inf`) are also mapped to `none`: in the comparator every path an
infinite or NaN value reaches produces the same answer as a parse failure
(see the module docstring). -/
def pyFloatL? (cs : List Char) : Option ℚ :=
  let signed :=
    match pyStripL cs with
    | '-' :: r => (pyFloatExact? r).map qneg
    | '+' :: r => pyFloatExact? r
    | t => pyFloatExact? t
  match signed with
  | none => none
  | some v =>
    let r := fpRound v
    if qabs r < FLOAT_MAX_BOUND then some r else none

/-- Model of `fractions.Fraction(s)` for a string containing `/`: optional
sign, underscore-grouped digits, `/` with optional whitespace around it,
unsigned underscore-grouped digits, with a zero denominator raising
(`none`). -/
def fracStrL? (cs : List Char) : Option ℚ :=
  match splitOnSlash (pyStripL cs) with
  | [a, b] =>
    let a2 := (a.reverse.dropWhile pyIsSpace).reverse
    let b2 := b.dropWhile pyIsSpace
    match signedUnderDigits? a2, underDigits? b2 with
    | some n, some d => if d = 0 then none else some (mkRat n d)
    | _, _ => none
  | _ => none

/-- Model of `fractions.Fraction(int(a), int(b))` applied to the two substrings
of a split answer; `none` models `ValueError` or `ZeroDivisionError`. -/
def fracOfParts2? (a b : List Char) : Option ℚ :=
  match pyIntL? a, pyIntL? b with
  | some n, some d => if d = 0 then none else some (Rat.divInt n d)
  | _, _ => none

/-- First comparison strategy of `MathGame.check_answer` (game.py lines
256-266): when both trimmed strings contain `/` and split into exactly two
parts, compare the two `Fraction(int, int)` values exactly; `none` means the
strategy fell through. -/
def stepA (us cs : List Char) : Option Bool :=
  if hasSlash us && hasSlash cs then
    match splitOnSlash us, splitOnSlash cs with
    | [u1, u2], [c1, c2] =>
      match fracOfParts2? u1 u2, fracOfParts2? c1 c2 with
      | some uf, some cf => some (decide (uf = cf))
      | _, _ => none
    | _, _ => none
  else none

/-- Second strategy (lines 268-284): build a `Fraction` from each side from any
numeric format (`Fraction(s)` when the string has a `/`, else
`Fraction(float(s))`) and compare exactly. -/
def stepB (us cs : List Char) : Option Bool :=
  let uf? := if hasSlash us then fracStrL? us else pyFloatL? us
  let cf? := if hasSlash cs then fracStrL? cs else pyFloatL? cs
  match uf?, cf? with
  | some uf, some cf => some (decide (uf = cf))
  | _, _ => none

/-- One side of the float-tolerance strategy (lines 288-289): a slash-free
string is `float(s)`; a slash-containing string divides the floats of its first
two `/`-separated parts, but only when both sides contained `/` (otherwise the
Python code reads an unbound `user_parts`/`correct_parts` variable and the
resulting `NameError` is absorbed by the outer handler, like a parse failure). -/
def floatSide? (s : List Char) (both : Bool) : Option ℚ :=
  if hasSlash s then
    if both then
      match splitOnSlash s with
      | a :: b :: _ =>
        match pyFloatL? a, pyFloatL? b with
        | some x, some y =>
          if y = 0 then none
          else
            let q := fpDiv x y
            if qabs q < FLOAT_MAX_BOUND then some q else none
        | _, _ => none
      | _ => none
    else none
  else pyFloatL? s

/-- Third strategy (lines 286-293): compare as doubles with absolute
tolerance the double `0.001`. -/
def stepC (us cs : List Char) : Option Bool :=
  let both := hasSlash us && hasSlash cs
  match floatSide? us both, floatSide? cs both with
  | some x, some y => some (decide (qabs (fpSub x y) < tol_fp))
  | _, _ => none

/-- Body of `MathGame.check_answer` on the two trimmed strings: direct equality
short-circuit, then the three strategies, then the raw-string fallback. -/
def checkL (u c : List Char) : Bool :=
  let us := pyStripL u
  let cs := pyStripL c
  if us = cs then true
  else
    match stepA us cs with
    | some b => b
    | none =>
      match stepB us cs with
      | some b => b
      | none =>
        match stepC us cs with
        | some b => b
        | none => decide (us = cs)

/-- Model of `MathGame.check_answer(user_answer, correct_answer)` (game.py
lines 236-300); `none` is the Python `None` sentinel for no answer. -/
def check_answer (user_answer : Option String) (correct_answer : String) : Bool :=
  match user_answer with
  | none => false
  | some ua => checkL ua.toList correct_answer.toList

/-! ### Scoring constants (game.py lines 11-17) -/

def POINTS_BASE : ℚ := 100

def POINTS_SPEED_BONUS_THRESHOLD : ℚ := 5

def POINTS_SPEED_BONUS : ℚ := 50

def POINTS_DIFFICULTY_MULTIPLIER : List ℚ := [1, mkRat 3 2, mkRat 5 2]

def STREAK_BONUS_THRESHOLD : Nat := 3

def STREAK_BONUS : ℚ := 25

/-- Python `int(x)` applied to a float truncates toward zero. -/
def pyTrunc (q : ℚ) : Int := if q < 0 then ⌈q⌉ else ⌊q⌋

/-- Model of `MathGame.calculate_score(is_correct, time_taken)` (game.py lines
61-80); `difficulty` and `streak_count` are the fields of `self` it reads.
The accumulation is double arithmetic: each `+`, `*`, `/` rounds, the streak
count is converted to a double, and `0.1` is the double `tenth_fp`; the
multipliers `1.5` and `2.5` and the thresholds are exact doubles. -/
def calculate_score (difficulty streak_count : Nat) (is_correct : Bool)
    (time_taken : ℚ) : Int :=
  if !is_correct then 0
  else
    let base := fpMul POINTS_BASE (POINTS_DIFFICULTY_MULTIPLIER.getD (difficulty - 1) 0)
    let s1 :=
      if time_taken < POINTS_SPEED_BONUS_THRESHOLD then
        fpAdd base (fpMul POINTS_SPEED_BONUS
          (pyMax 0 (fpDiv (fpSub POINTS_SPEED_BONUS_THRESHOLD time_taken)
            POINTS_SPEED_BONUS_THRESHOLD)))
      else base
    let s2 :=
      if STREAK_BONUS_THRESHOLD ≤ streak_count then
        fpAdd s1 (fpMul STREAK_BONUS
          (fpAdd 1 (fpMul (fpRound ((streak_count - STREAK_BONUS_THRESHOLD : ℕ) : ℚ))
            tenth_fp)))
      else s1
    pyTrunc s2

/-! ### Session state (game.py lines 24-53, 115-165) -/
/-- One round record, as stored in `self.results` by the round pipeline. -/
structure RoundResult where
  correct : Bool
  time_taken : ℚ
  question : String
  user_answer : Option String
  correct_answer : String
  score : Int
deriving DecidableEq

/-- The mutable state of a `MathGame` instance. -/
structure MathGame where
  operation_type : Option Nat
  difficulty : Nat
  adaptive_difficulty : Bool
  rounds : Nat
  results : List RoundResult
  streak_count : Nat
  total_score : Int
  timed_mode : Bool
  time_limit : ℚ
deriving DecidableEq

/-- State built by `MathGame.__init__`. -/
def MathGame.init : MathGame :=
  { operation_type := none, difficulty := 1, adaptive_difficulty := false,
    rounds := 10, results := [], streak_count := 0, total_score := 0,
    timed_mode := false, time_limit := 60 }

/-- Model of `MathGame.setup_game` (game.py lines 35-53). -/
def setup_game (g : MathGame) (operation_type difficulty_choice rounds : Nat)
    (timed_mode : Bool) (time_limit : ℚ) : MathGame :=
  let g1 := { g with
    operation_type := some operation_type, rounds := rounds,
    results := [], streak_count := 0, total_score := 0,
    timed_mode := timed_mode, time_limit := time_limit }
  if difficulty_choice < 4 then
    { g1 with difficulty := difficulty_choice, adaptive_difficulty := false }
  else
    { g1 with difficulty := 1, adaptive_difficulty := true }

/-- Model of `MathGame.update_streak` (game.py lines 115-131): returns the
optional streak message and the updated state. -/
def update_streak (g : MathGame) (is_correct : Bool) : Option String × MathGame :=
  if is_correct then
    let n := g.streak_count + 1
    let msg :=
      if STREAK_BONUS_THRESHOLD ≤ n ∧ n % STREAK_BONUS_THRESHOLD = 0 then
        some (toString n ++ " ANSWER STREAK!")
      else none
    (msg, { g with streak_count := n })
  else
    (if STREAK_BONUS_THRESHOLD ≤ g.streak_count then some "Streak broken!" else none,
     { g with streak_count := 0 })

def difficulty_names : List String := ["Easy", "Medium", "Hard"]

/-- Model of `MathGame.adjust_difficulty` (game.py lines 82-113): returns the
optional transition message and the updated state. -/
def adjust_difficulty (g : MathGame) : Option String × MathGame :=
  if !g.adaptive_difficulty then (none, g)
  else
    let recent := g.results.drop (g.results.length - 3)
    if recent.length < 3 then (none, g)
    else
      let correct_count := (recent.filter (fun r => r.correct)).length
      let avg_time := (recent.map (fun r => r.time_taken)).sum / (recent.length : ℚ)
      let old_difficulty := g.difficulty
      let newd :=
        if correct_count = 3 ∧ avg_time < 5 then min 3 (g.difficulty + 1)
        else if correct_count ≤ 1 then max 1 (g.difficulty - 1)
        else g.difficulty
      let g2 := { g with difficulty := newd }
      if old_difficulty ≠ newd then
        (some (if old_difficulty < newd then
            "Difficulty increased to " ++ difficulty_names.getD (newd - 1) ""
          else
            "Difficulty adjusted to " ++ difficulty_names.getD (newd - 1) "" ++
              " to help you improve"), g2)
      else (none, g2)

/-- Output shape of `MathGame.get_game_stats`. -/
structure GameStats where
  total_rounds : Nat
  correct_count : Nat
  accuracy : ℚ
  avg_time : ℚ
  total_score : Int
deriving DecidableEq

/-- Model of `MathGame.get_game_stats` (game.py lines 133-158). -/
def get_game_stats (g : MathGame) : GameStats :=
  if g.results.isEmpty then
    { total_rounds := 0, correct_count := 0, accuracy := 0, avg_time := 0,
      total_score := 0 }
  else
    let total_rounds := g.results.length
    let correct_count := (g.results.filter (fun r => r.correct)).length
    let accuracy :=
      if 0 < total_rounds then ((correct_count : ℚ) / (total_rounds : ℚ)) * 100 else 0
    let avg_time :=
      if 0 < total_rounds then
        (g.results.map (fun r => r.time_taken)).sum / (total_rounds : ℚ)
      else 0
    let total_score := (g.results.map (fun r => r.score)).sum
    { total_rounds := total_rounds, correct_count := correct_count,
      accuracy := accuracy, avg_time := avg_time, total_score := total_score }

/-- Model of `MathGame.add_result` (game.py lines 160-165). -/
def add_result (g : MathGame) (r : RoundResult) : MathGame :=
  { g with results := g.results ++ [r],
           total_score := g.total_score + r.score }

/-- One iteration of the round pipeline of `MathGame.play_timed_challenge`
(game.py lines 203-219): judge the answer, compute the score from the current
state, record the round, then update the streak.  Returns the new state, the
round score, and the streak message. -/
def timed_round_step (g : MathGame) (question : String)
    (user_answer : Option String) (correct_answer : String)
    (time_taken : ℚ) : MathGame × Int × Option String :=
  let is_correct := check_answer user_answer correct_answer
  let score := calculate_score g.difficulty g.streak_count is_correct time_taken
  let result : RoundResult := {
    correct := is_correct, time_taken := time_taken, question := question,
    user_answer := user_answer, correct_answer := correct_answer,
    score := score }
  let g1 := add_result g result
  let p := update_streak g1 is_correct
  (p.2, score, p.1)

/-- Reference Scoring Calculator transcribed from the specification text
(spec §4.3), used as the comparison point for the refinement claim about
`calculate_score`: multipliers `[1.0, 1.5, 2.5]` indexed by `difficulty - 1`,
speed bonus `50 × (5 - t) / 5` for `t < 5`, streak bonus
`25 × (1 + (streak - 3) × 0.1)` for `streak ≥ 3`, floored. -/
def spec_score (is_correct : Bool) (time_taken : ℚ) (difficulty streak : Nat) : Int :=
  if !is_correct then 0
  else
    let base := 100 * ([1, 3/2, 5/2] : List ℚ).getD (difficulty - 1) 0
    let speed := if time_taken < 5 then 50 * (5 - time_taken) / 5 else 0
    let streakB :=
      if 3 ≤ streak then 25 * (1 + ((streak : ℚ) - 3) * (1 / 10)) else 0
    ⌊base + speed + streakB⌋

/-! ### Decimal rendering of integers (the Python f-string `f"{p}/{q}"`) -/
/-- The character of a decimal digit. -/
def digitChar (d : Nat) : Char :=
  match d with
  | 0 => '0' | 1 => '1' | 2 => '2' | 3 => '3' | 4 => '4'
  | 5 => '5' | 6 => '6' | 7 => '7' | 8 => '8' | _ => '9'

/-- Decimal rendering of a natural number (as Python `str` produces it). -/
def renderNat (n : Nat) : List Char :=
  if n = 0 then ['0'] else ((Nat.digits 10 n).map digitChar).reverse

/-- Decimal rendering of an integer (as Python `str` produces it). -/
def renderInt (i : Int) : List Char :=
  if i < 0 then '-' :: renderNat i.natAbs else renderNat i.natAbs

/-- The state transitions a session can make after construction: a (UI
validated, `1 ≤ choice`) `setup_game` call, recording a round, a streak
update, an adaptive adjustment, the reset at the start of
`play_timed_challenge` (game.py lines 172-175), or a full timed round. -/
inductive GameStep : MathGame → MathGame → Prop
  | setup (g : MathGame) (op choice rounds : Nat) (tm : Bool) (tl : ℚ)
      (h1 : 1 ≤ choice) :
      GameStep g (setup_game g op choice rounds tm tl)
  | add (g : MathGame) (r : RoundResult) : GameStep g (add_result g r)
  | streak (g : MathGame) (b : Bool) : GameStep g (update_streak g b).2
  | adjust (g : MathGame) : GameStep g (adjust_difficulty g).2
  | timed_reset (g : MathGame) :
      GameStep g { g with results := [], streak_count := 0, total_score := 0 }
  | round (g : MathGame) (q : String) (ua : Option String) (ca : String) (t : ℚ) :
      GameStep g (timed_round_step g q ua ca t).1

/-- A session state reachable from the constructor state by engine operations. -/
def Reachable (g : MathGame) : Prop :=
  Relation.ReflTransGen GameStep MathGame.init g

/-- A concrete recorded round used by witnesses. -/
def sampleResult : RoundResult := {
  correct := true, time_taken := 2, question := "3 + 4",
  user_answer := some "7", correct_answer := "7", score := 110 }

theorem qneg_eq (x : ℚ) : qneg x = -x := by
  rw [qneg, Rat.divInt_eq_div]
  push_cast
  rw [neg_div, Rat.num_div_den]

theorem qsub_eq (x y : ℚ) : qsub x y = x - y := by
  rw [qsub, Rat.divInt_eq_div]
  have hx : ((x.den : ℚ)) ≠ 0 := by exact_mod_cast x.den_nz
  have hy : ((y.den : ℚ)) ≠ 0 := by exact_mod_cast y.den_nz
  conv_rhs => rw [← Rat.num_div_den x, ← Rat.num_div_den y]
  push_cast
  field_simp
  ring

theorem num_eq_self_mul_den (x : ℚ) : (x.num : ℚ) = x * x.den := by
  have h : ((x.den : ℚ)) ≠ 0 := by exact_mod_cast x.den_nz
  calc (x.num : ℚ) = (x.num : ℚ) / x.den * x.den := (div_mul_cancel₀ _ h).symm
  _ = x * x.den := by rw [Rat.num_div_den]

theorem qdiv_eq (x y : ℚ) : qdiv x y = x / y := by
  by_cases h : y = 0
  · subst h
    simp [qdiv]
  · have hx : ((x.den : ℚ)) ≠ 0 := by exact_mod_cast x.den_nz
    have hyn : ((y.num : ℚ)) ≠ 0 := by
      exact_mod_cast Rat.num_ne_zero.mpr h
    rw [qdiv, Rat.divInt_eq_div]
    push_cast
    rw [div_eq_div_iff (mul_ne_zero hyn hx) h, num_eq_self_mul_den x,
      num_eq_self_mul_den y]
    ring

theorem qabs_eq (x : ℚ) : qabs x = |x| := by
  rw [qabs]
  by_cases h : x < 0
  · rw [if_pos h, qneg_eq, abs_of_neg h]
  · rw [if_neg h, abs_of_nonneg (le_of_not_lt h)]

theorem qadd_eq (x y : ℚ) : qadd x y = x + y := by
  rw [qadd, Rat.divInt_eq_div]
  have hx : ((x.den : ℚ)) ≠ 0 := by exact_mod_cast x.den_nz
  have hy : ((y.den : ℚ)) ≠ 0 := by exact_mod_cast y.den_nz
  conv_rhs => rw [← Rat.num_div_den x, ← Rat.num_div_den y]
  push_cast
  field_simp

theorem qmul_eq (x y : ℚ) : qmul x y = x * y := by
  rw [qmul, Rat.divInt_eq_div]
  have hx : ((x.den : ℚ)) ≠ 0 := by exact_mod_cast x.den_nz
  have hy : ((y.den : ℚ)) ≠ 0 := by exact_mod_cast y.den_nz
  conv_rhs => rw [← Rat.num_div_den x, ← Rat.num_div_den y]
  push_cast
  field_simp

theorem fpRoundPos_nonneg (q : ℚ) : 0 ≤ fpRoundPos q := by
  rw [fpRoundPos]
  lift_lets
  extract_lets j0 k e N D m r m'
  split_ifs
  · exact le_refl 0
  · exact Nat.cast_nonneg _
  · rw [Rat.mkRat_eq_div]
    positivity

theorem fpRound_nonneg (q : ℚ) (h : 0 ≤ q) : 0 ≤ fpRound q := by
  rw [fpRound, if_neg (not_lt.mpr h)]
  exact fpRoundPos_nonneg q

theorem fpAdd_nonneg {x y : ℚ} (hx : 0 ≤ x) (hy : 0 ≤ y) : 0 ≤ fpAdd x y := by
  rw [fpAdd]
  exact fpRound_nonneg _ (by rw [qadd_eq]; exact add_nonneg hx hy)

theorem fpMul_nonneg {x y : ℚ} (hx : 0 ≤ x) (hy : 0 ≤ y) : 0 ≤ fpMul x y := by
  rw [fpMul]
  exact fpRound_nonneg _ (by rw [qmul_eq]; exact mul_nonneg hx hy)

theorem fpDiv_nonneg {x y : ℚ} (hx : 0 ≤ x) (hy : 0 ≤ y) : 0 ≤ fpDiv x y := by
  rw [fpDiv]
  exact fpRound_nonneg _ (by rw [qdiv_eq]; exact div_nonneg hx hy)

theorem pyMax_zero_nonneg (v : ℚ) : 0 ≤ pyMax 0 v := by
  rw [pyMax]
  split_ifs with h
  · exact le_of_lt h
  · exact le_refl 0

theorem multiplier_nonneg (i : Nat) :
    0 ≤ POINTS_DIFFICULTY_MULTIPLIER.getD i 0 := by
  rcases i with _ | _ | _ | i
  · decide
  · decide
  · decide
  · simp [POINTS_DIFFICULTY_MULTIPLIER, List.getD]

example : check_answer (some "0.5") "1/2" = true := by decide

example : check_answer (some "0.5001") "1/2" = false := by decide

example : check_answer (some "0.51") "1/2" = false := by decide

example : check_answer (some "2/4") "1/2" = true := by decide

example : check_answer (some "1/2/3") "1/2" = true := by decide

example : check_answer (some "abc") "5" = false := by decide

example : check_answer (some "1/0") "1/2" = false := by decide

example : check_answer none "7" = false := by decide

example : check_answer (some "7") "7" = true := by decide

example : check_answer (some " 7 ") "7" = true := by decide

example : check_answer (some "1 / 2") "1/2" = true := by decide

example : check_answer (some "-3/6") "-1/2" = true := by decide

example : check_answer (some "1.5") "3/2" = true := by decide

example : check_answer (some "2e1") "20" = true := by decide

example : check_answer (some "0.3334") "1/3" = false := by decide

example : check_answer (some "1.5/3") "1/2" = true := by decide

example : check_answer (some "0.1") "1/10" = false := by decide

example : check_answer (some "1_0/2") "10/2" = true := by decide

example : check_answer (some "3 / 2") "1.5" = true := by decide

example : check_answer (some "1_0.5") "10.5" = true := by decide

example : check_answer (some "1e400") "1" = false := by decide

example : check_answer (some "\u00A07") "7" = true := by decide

example : check_answer
    (some "0.1000000000000000055511151231257827021181583404541015625") "0.1" =
      true := by decide

example : pyIntL? "1_0".toList = some 10 := by decide

example : pyIntL? "1__0".toList = none := by decide

example : pyIntL? "_10".toList = none := by decide

example : pyIntL? "10_".toList = none := by decide

example : pyFloatL? "0.1".toList =
    some (mkRat 3602879701896397 36028797018963968) := by decide

example : fracStrL? "3 / 2".toList = some (mkRat 3 2) := by decide

example : fracStrL? "- 3/2".toList = none := by decide

theorem digitChar_props (d : Nat) :
    (digitChar d).isDigit = true ∧ pyIsSpace (digitChar d) = false ∧
    ((digitChar d == '/') = false ∧ (digitChar d == '-') = false ∧
      (digitChar d == '+') = false ∧ (digitChar d == '_') = false) := by
  rcases d with _|_|_|_|_|_|_|_|_|d <;> exact ⟨rfl, rfl, rfl, rfl, rfl, rfl⟩

theorem digitChar_toNat (d : Nat) (h : d < 10) : (digitChar d).toNat - 48 = d := by
  interval_cases d <;> decide

theorem digitsValL_append (cs : List Char) (c : Char) :
    digitsValL (cs ++ [c]) = digitsValL cs * 10 + (c.toNat - 48) := by
  rw [digitsValL, digitsValL, List.foldl_append]
  rfl

theorem digitsValL_reverse_map (ds : List Nat) (h : ∀ d ∈ ds, d < 10) :
    digitsValL ((ds.map digitChar).reverse) = Nat.ofDigits 10 ds := by
  induction ds with
  | nil => rfl
  | cons d ds ih =>
    have hd : d < 10 := h d (List.mem_cons_self d ds)
    have hds : ∀ x ∈ ds, x < 10 := fun x hx => h x (List.mem_cons_of_mem d hx)
    rw [List.map_cons, List.reverse_cons, digitsValL_append, ih hds,
      Nat.ofDigits_cons, digitChar_toNat d hd]
    omega

theorem digitsValL_renderNat (n : Nat) : digitsValL (renderNat n) = n := by
  by_cases h : n = 0
  · subst h
    decide
  · rw [renderNat, if_neg h,
      digitsValL_reverse_map (Nat.digits 10 n)
        (fun d hd => Nat.digits_lt_base (by omega) hd),
      Nat.ofDigits_digits]

theorem renderNat_ne_nil (n : Nat) : renderNat n ≠ [] := by
  by_cases h : n = 0
  · subst h
    decide
  · rw [renderNat, if_neg h]
    simp only [ne_eq, List.reverse_eq_nil_iff, List.map_eq_nil_iff]
    exact Nat.digits_ne_nil_iff_ne_zero.mpr h

theorem renderNat_mem_digitChar (n : Nat) (c : Char) (hc : c ∈ renderNat n) :
    ∃ d, c = digitChar d := by
  by_cases h : n = 0
  · subst h
    rw [show renderNat 0 = ['0'] from rfl, List.mem_singleton] at hc
    exact ⟨0, hc⟩
  · rw [renderNat, if_neg h, List.mem_reverse, List.mem_map] at hc
    obtain ⟨d, _, rfl⟩ := hc
    exact ⟨d, rfl⟩

theorem renderNat_all_digits (n : Nat) (c : Char) (hc : c ∈ renderNat n) :
    c.isDigit = true := by
  obtain ⟨d, rfl⟩ := renderNat_mem_digitChar n c hc
  exact (digitChar_props d).1

theorem isDigit_ne_underscore (c : Char) (h : c.isDigit = true) :
    (c == '_') = false := by
  cases hc : c == '_'
  · rfl
  · rw [beq_iff_eq] at hc
    subst hc
    exact absurd h (by decide)

theorem groupRest_of_digits (cs : List Char) (h : ∀ c ∈ cs, c.isDigit = true) :
    groupRest cs = true := by
  induction cs with
  | nil => rfl
  | cons c r ih =>
    have hc := h c (List.mem_cons_self c r)
    have hne : (c == '_') = false := isDigit_ne_underscore c hc
    have hstep : groupRest (c :: r) = (c.isDigit && groupRest r) := by
      rw [groupRest.eq_def]
      simp [hne]
    rw [hstep, hc, ih (fun x hx => h x (List.mem_cons_of_mem c hx))]
    rfl

theorem isUnderDigits_renderNat (n : Nat) :
    isUnderDigits (renderNat n) = true := by
  cases hrn : renderNat n with
  | nil => exact absurd hrn (renderNat_ne_nil n)
  | cons c r =>
    have hall : ∀ x ∈ c :: r, x.isDigit = true := by
      rw [← hrn]
      exact fun x hx => renderNat_all_digits n x hx
    show (c.isDigit && groupRest r) = true
    rw [hall c (List.mem_cons_self c r),
      groupRest_of_digits r (fun x hx => hall x (List.mem_cons_of_mem c hx))]
    rfl

theorem underDigits?_renderNat (n : Nat) : underDigits? (renderNat n) = some n := by
  rw [underDigits?, if_pos (isUnderDigits_renderNat n), underDigitsVal,
    List.filter_eq_self.mpr (fun c hc => renderNat_all_digits n c hc),
    digitsValL_renderNat]

theorem isDigit_ne_signs (c : Char) (h : c.isDigit = true) :
    (c == '-') = false ∧ (c == '+') = false := by
  constructor
  · cases hc : c == '-'
    · rfl
    · rw [beq_iff_eq] at hc
      subst hc
      exact absurd h (by decide)
  · cases hc : c == '+'
    · rfl
    · rw [beq_iff_eq] at hc
      subst hc
      exact absurd h (by decide)

theorem signedUnderDigits?_renderInt (i : Int) :
    signedUnderDigits? (renderInt i) = some i := by
  by_cases h : i < 0
  · rw [renderInt, if_pos h, signedUnderDigits?, if_pos (by decide),
      underDigits?_renderNat]
    show some (-(i.natAbs : Int)) = some i
    congr 1
    omega
  · rw [renderInt, if_neg h]
    cases hrn : renderNat i.natAbs with
    | nil => exact absurd hrn (renderNat_ne_nil i.natAbs)
    | cons c r =>
      have hc : c.isDigit = true :=
        renderNat_all_digits i.natAbs c (by rw [hrn]; exact List.mem_cons_self c r)
      obtain ⟨h1, h2⟩ := isDigit_ne_signs c hc
      rw [signedUnderDigits?, if_neg (by simp [h1]), if_neg (by simp [h2]), ← hrn,
        underDigits?_renderNat]
      show some ((i.natAbs : Int)) = some i
      congr 1
      omega

theorem dropWhile_eq_self_of_all (p : Char → Bool) (l : List Char)
    (h : ∀ c ∈ l, p c = false) : l.dropWhile p = l := by
  cases l with
  | nil => rfl
  | cons x xs =>
    rw [List.dropWhile_cons, if_neg]
    rw [h x (List.mem_cons_self x xs)]
    exact Bool.false_ne_true

theorem pyStripL_eq_self (cs : List Char) (h : ∀ c ∈ cs, pyIsSpace c = false) :
    pyStripL cs = cs := by
  rw [pyStripL, dropWhile_eq_self_of_all pyIsSpace cs h,
    dropWhile_eq_self_of_all pyIsSpace cs.reverse
      (fun c hc => h c (List.mem_reverse.mp hc)),
    List.reverse_reverse]

theorem splitOnSlash_no_slash (cs : List Char) (h : hasSlash cs = false) :
    splitOnSlash cs = [cs] := by
  induction cs with
  | nil => rfl
  | cons x xs ih =>
    rw [hasSlash, List.any_cons, Bool.or_eq_false_iff] at h
    rw [splitOnSlash, if_neg (by rw [h.1]; exact Bool.false_ne_true), ih h.2]

theorem splitOnSlash_append (a b : List Char) (h : hasSlash a = false) :
    splitOnSlash (a ++ '/' :: b) = a :: splitOnSlash b := by
  induction a with
  | nil => rw [List.nil_append, splitOnSlash, if_pos (by decide)]
  | cons x xs ih =>
    rw [hasSlash, List.any_cons, Bool.or_eq_false_iff] at h
    rw [List.cons_append, splitOnSlash,
      if_neg (by rw [h.1]; exact Bool.false_ne_true), ih h.2]

theorem hasSlash_append_slash (a b : List Char) :
    hasSlash (a ++ '/' :: b) = true := by
  rw [hasSlash, List.any_eq_true]
  exact ⟨'/', List.mem_append_right a (List.mem_cons_self _ b), by decide⟩

theorem renderInt_chars (i : Int) (c : Char) (hc : c ∈ renderInt i) :
    pyIsSpace c = false ∧ (c == '/') = false := by
  have hdig : ∀ x ∈ renderNat i.natAbs, pyIsSpace x = false ∧ (x == '/') = false := by
    intro x hx
    obtain ⟨d, rfl⟩ := renderNat_mem_digitChar i.natAbs x hx
    exact ⟨(digitChar_props d).2.1, (digitChar_props d).2.2.1⟩
  rw [renderInt] at hc
  by_cases h : i < 0
  · rw [if_pos h] at hc
    rcases List.mem_cons.mp hc with rfl | hmem
    · exact ⟨rfl, rfl⟩
    · exact hdig c hmem
  · rw [if_neg h] at hc
    exact hdig c hc

theorem hasSlash_renderInt (i : Int) : hasSlash (renderInt i) = false := by
  rw [hasSlash]
  cases ha : (renderInt i).any (fun c => c == '/') with
  | false => rfl
  | true =>
    rw [List.any_eq_true] at ha
    obtain ⟨c, hc, hceq⟩ := ha
    exact absurd hceq (by rw [(renderInt_chars i c hc).2]; exact Bool.false_ne_true)

theorem pyIntL?_renderInt (i : Int) : pyIntL? (renderInt i) = some i := by
  rw [pyIntL?, pyStripL_eq_self _ (fun c hc => (renderInt_chars i c hc).1),
    signedUnderDigits?_renderInt]

theorem checkL_of_stepA_true (u c : List Char)
    (ha : stepA (pyStripL u) (pyStripL c) = some true) : checkL u c = true := by
  rw [checkL]
  by_cases h : pyStripL u = pyStripL c
  · rw [if_pos h]
  · rw [if_neg h, ha]

theorem checkL_of_stepB (u c : List Char) (b : Bool)
    (hne : pyStripL u ≠ pyStripL c)
    (ha : stepA (pyStripL u) (pyStripL c) = none)
    (hb : stepB (pyStripL u) (pyStripL c) = some b) : checkL u c = b := by
  rw [checkL, if_neg hne, ha, hb]

theorem checkL_all_fail (u c : List Char)
    (ha : stepA (pyStripL u) (pyStripL c) = none)
    (hb : stepB (pyStripL u) (pyStripL c) = none)
    (hc : stepC (pyStripL u) (pyStripL c) = none) :
    checkL u c = decide (pyStripL u = pyStripL c) := by
  rw [checkL]
  by_cases h : pyStripL u = pyStripL c
  · rw [if_pos h, decide_eq_true h]
  · rw [if_neg h, ha, hb, hc]

theorem adjust_difficulty_preserves (g : MathGame) :
    (adjust_difficulty g).2.streak_count = g.streak_count ∧
    (adjust_difficulty g).2.results = g.results ∧
    (adjust_difficulty g).2.total_score = g.total_score ∧
    (adjust_difficulty g).2.adaptive_difficulty = g.adaptive_difficulty := by
  simp only [adjust_difficulty]
  split_ifs <;> exact ⟨rfl, rfl, rfl, rfl⟩

theorem adjust_difficulty_cases (g : MathGame) :
    (adjust_difficulty g).2.difficulty = g.difficulty ∨
    (adjust_difficulty g).2.difficulty = min 3 (g.difficulty + 1) ∨
    (adjust_difficulty g).2.difficulty = max 1 (g.difficulty - 1) := by
  simp only [adjust_difficulty]
  split_ifs <;> simp

theorem update_streak_difficulty (g : MathGame) (b : Bool) :
    (update_streak g b).2.difficulty = g.difficulty := by
  cases b <;> simp only [update_streak] <;> split_ifs <;> rfl

theorem timed_round_step_difficulty (g : MathGame) (q : String)
    (ua : Option String) (ca : String) (t : ℚ) :
    (timed_round_step g q ua ca t).1.difficulty = g.difficulty := by
  rw [timed_round_step]
  rw [update_streak_difficulty]
  rfl

/-! ### Claims -/
/-- C10: when adaptive mode is off, `adjust_difficulty` returns `None` and
leaves the entire session state unchanged, so invoking it outside adaptive
mode is a safe no-op. -/
theorem adjust_difficulty_noop_when_adaptive_off (g : MathGame)
    (h : g.adaptive_difficulty = false) : adjust_difficulty g = (none, g) := by
  rw [adjust_difficulty, if_pos]
  rw [h]
  rfl

/-- Witness for the adaptive-off no-op theorem at the freshly constructed
state. -/
theorem adjust_difficulty_noop_when_adaptive_off_witness :
    MathGame.init.adaptive_difficulty = false ∧
    adjust_difficulty MathGame.init = (none, MathGame.init) :=
  ⟨rfl, adjust_difficulty_noop_when_adaptive_off MathGame.init rfl⟩

theorem foldl_add_result (g : MathGame) (rs : List RoundResult) :
    (rs.foldl add_result g).total_score =
      g.total_score + (rs.map (fun r => r.score)).sum ∧
    (rs.foldl add_result g).results = g.results ++ rs := by
  induction rs generalizing g with
  | nil => simp
  | cons r rs ih =>
    simp only [List.foldl_cons, List.map_cons, List.sum_cons]
    constructor
    · rw [(ih (add_result g r)).1, add_result]
      push_cast
      ring
    · rw [(ih (add_result g r)).2, add_result]
      simp

theorem get_game_stats_total (g : MathGame) :
    (get_game_stats g).total_score = (g.results.map (fun r => r.score)).sum := by
  rw [get_game_stats]
  split_ifs with h
  · rw [List.isEmpty_iff] at h
    rw [h]
    rfl
  · rfl

/-- C9: starting from a freshly reset session, the incrementally accumulated
`total_score` equals the sum of the round scores, and equals the
`total_score` that `get_game_stats` recomputes; on an empty session
`get_game_stats` returns all-zero statistics with no division fault. -/
theorem total_score_round_trip (g : MathGame) (rs : List RoundResult)
    (h1 : g.results = []) (h2 : g.total_score = 0) :
    (rs.foldl add_result g).total_score = (rs.map (fun r => r.score)).sum ∧
    (get_game_stats (rs.foldl add_result g)).total_score =
      (rs.map (fun r => r.score)).sum ∧
    get_game_stats g =
      { total_rounds := 0, correct_count := 0, accuracy := 0, avg_time := 0,
        total_score := 0 } := by
  refine ⟨?_, ?_, ?_⟩
  · rw [(foldl_add_result g rs).1, h2, zero_add]
  · rw [get_game_stats_total, (foldl_add_result g rs).2, h1, List.nil_append]
  · rw [get_game_stats, if_pos]
    rw [h1]
    rfl

/-- Witness for the aggregation round-trip theorem: one concrete round added
to a fresh session. -/
theorem total_score_round_trip_witness :
    ([sampleResult].foldl add_result MathGame.init).total_score =
      ([sampleResult].map (fun r => r.score)).sum ∧
    (get_game_stats ([sampleResult].foldl add_result MathGame.init)).total_score =
      ([sampleResult].map (fun r => r.score)).sum ∧
    get_game_stats MathGame.init =
      { total_rounds := 0, correct_count := 0, accuracy := 0, avg_time := 0,
        total_score := 0 } :=
  total_score_round_trip MathGame.init [sampleResult] rfl rfl

/-- C6: the streak tracker increments by exactly 1 on a correct answer with a
milestone notification exactly when the post-increment count is a positive
multiple of 3; it resets to 0 on an incorrect answer with a broken-streak
notification exactly when the prior count was at least 3; and neither
`adjust_difficulty` nor `add_result` changes the streak counter. -/
theorem update_streak_step_relation (g : MathGame) (r : RoundResult) :
    (update_streak g true).2.streak_count = g.streak_count + 1 ∧
    ((update_streak g true).1.isSome = true ↔
      (3 ≤ g.streak_count + 1 ∧ (g.streak_count + 1) % 3 = 0)) ∧
    (update_streak g false).2.streak_count = 0 ∧
    ((update_streak g false).1.isSome = true ↔ 3 ≤ g.streak_count) ∧
    (adjust_difficulty g).2.streak_count = g.streak_count ∧
    (add_result g r).streak_count = g.streak_count := by
  refine ⟨rfl, ?_, rfl, ?_, (adjust_difficulty_preserves g).1, rfl⟩
  · simp only [update_streak, STREAK_BONUS_THRESHOLD, if_true]
    split_ifs with h
    · exact iff_of_true (by simp) h
    · exact iff_of_false (by simp) h
  · simp only [update_streak, STREAK_BONUS_THRESHOLD, Bool.false_eq_true,
      if_false]
    split_ifs with h
    · exact iff_of_true (by simp) h
    · exact iff_of_false (by simp) h

theorem pyTrunc_eq_floor_of_nonneg (q : ℚ) (h : 0 ≤ q) : pyTrunc q = ⌊q⌋ := by
  rw [pyTrunc, if_neg (not_lt.mpr h)]

theorem calculate_score_nonneg (d s : Nat) (c : Bool) (t : ℚ) :
    0 ≤ calculate_score d s c t := by
  have key : ∀ q : ℚ, 0 ≤ q → (0 : Int) ≤ pyTrunc q := by
    intro q hq
    rw [pyTrunc_eq_floor_of_nonneg q hq]
    exact Int.floor_nonneg.mpr hq
  have hb : (0 : ℚ) ≤ POINTS_BASE := by rw [POINTS_BASE]; norm_num
  have h50 : (0 : ℚ) ≤ POINTS_SPEED_BONUS := by rw [POINTS_SPEED_BONUS]; norm_num
  have h25 : (0 : ℚ) ≤ STREAK_BONUS := by rw [STREAK_BONUS]; norm_num
  have htenth : (0 : ℚ) ≤ tenth_fp := by decide
  have hbase : (0 : ℚ) ≤
      fpMul POINTS_BASE (POINTS_DIFFICULTY_MULTIPLIER.getD (d - 1) 0) :=
    fpMul_nonneg hb (multiplier_nonneg (d - 1))
  have hspeed : (0 : ℚ) ≤ fpMul POINTS_SPEED_BONUS
      (pyMax 0 (fpDiv (fpSub POINTS_SPEED_BONUS_THRESHOLD t)
        POINTS_SPEED_BONUS_THRESHOLD)) :=
    fpMul_nonneg h50 (pyMax_zero_nonneg _)
  have hstrk : (0 : ℚ) ≤ fpMul STREAK_BONUS
      (fpAdd 1 (fpMul (fpRound ((s - STREAK_BONUS_THRESHOLD : ℕ) : ℚ))
        tenth_fp)) :=
    fpMul_nonneg h25 (fpAdd_nonneg (by norm_num)
      (fpMul_nonneg (fpRound_nonneg _ (Nat.cast_nonneg _)) htenth))
  rw [calculate_score]
  cases c with
  | false => exact le_refl 0
  | true =>
    simp only [Bool.not_true, Bool.false_eq_true, if_false]
    split_ifs
    · exact key _ (fpAdd_nonneg (fpAdd_nonneg hbase hspeed) hstrk)
    · exact key _ (fpAdd_nonneg hbase hstrk)
    · exact key _ (fpAdd_nonneg hbase hspeed)
    · exact key _ hbase

theorem calculate_score_base_eq (d s : Nat) (t : ℚ) (hs : s < 3) (ht : 5 ≤ t)
    (h1 : 1 ≤ d) (h2 : d ≤ 3) :
    calculate_score d s true t = spec_score true t d s := by
  have hd : d = 1 ∨ d = 2 ∨ d = 3 := by omega
  have hL : ∀ v : Int,
      pyTrunc (fpMul POINTS_BASE (POINTS_DIFFICULTY_MULTIPLIER.getD (d - 1) 0)) = v →
      calculate_score d s true t = v := by
    intro v hv
    rw [calculate_score]
    simp only [Bool.not_true, Bool.false_eq_true, if_false]
    rw [if_neg (by rw [STREAK_BONUS_THRESHOLD]; omega),
      if_neg (by rw [POINTS_SPEED_BONUS_THRESHOLD]; exact not_lt.mpr ht), hv]
  have hR : ∀ v : Int, ⌊(100 : ℚ) * ([1, 3/2, 5/2] : List ℚ).getD (d - 1) 0⌋ = v →
      spec_score true t d s = v := by
    intro v hv
    simp only [spec_score, Bool.not_true, Bool.false_eq_true, if_false]
    rw [if_neg (not_lt.mpr ht), if_neg (by omega), add_zero, add_zero, hv]
  rcases hd with rfl | rfl | rfl
  · rw [hL 100 (by decide), hR 100 (by
      norm_num [show ([1, 3/2, 5/2] : List ℚ).getD (1 - 1) 0 = 1 from rfl])]
  · rw [hL 150 (by decide), hR 150 (by
      norm_num [show ([1, 3/2, 5/2] : List ℚ).getD (2 - 1) 0 = 3/2 from rfl])]
  · rw [hL 250 (by decide), hR 250 (by
      norm_num [show ([1, 3/2, 5/2] : List ℚ).getD (3 - 1) 0 = 5/2 from rfl])]

/-- C4 counterexample: the scorer accumulates in binary doubles, so it is not
the exact reference formula.  At difficulty 1, streak 157 and 10 seconds the
double arithmetic gives `100 + 25 * (1 + 154 * 0.1) = 509.99999999999994`
and `int()` truncates it to 509, while the specification's exact formula
floors the exact value 510 to 510. -/
theorem streak_float_rounding_counterexample :
    calculate_score 1 157 true 10 = 509 ∧
    spec_score true 10 1 157 = 510 ∧
    (509 : Int) ≠ 510 := by
  refine ⟨by decide, ?_, by decide⟩
  simp only [spec_score]
  norm_num [show ([1, 3/2, 5/2] : List ℚ).getD (1 - 1) 0 = 1 from rfl]

/-- C4 (amended): `calculate_score` returns 0 for an incorrect answer and is
never negative; on the rounding-free region (streak below 3 and no speed
bonus) it agrees with the specification's exact reference formula
`spec_score` for every difficulty in 1..3 and every time; it takes the
documented values 100 (correct, t=10, difficulty 1, streak 0) and 150
(correct, t=0, difficulty 1, streak 0), agreeing with the reference there.
The streak-bonus double arithmetic, however, makes it differ from the exact
formula at some inputs: at difficulty 1, streak 157, t=10 it returns 509
while the reference floors to 510. -/
theorem calculate_score_fp_properties (d s : Nat) (c : Bool) (t : ℚ)
    (h1 : 1 ≤ d) (h2 : d ≤ 3) :
    calculate_score d s false t = 0 ∧
    0 ≤ calculate_score d s c t ∧
    (s < 3 → 5 ≤ t → calculate_score d s true t = spec_score true t d s) ∧
    (calculate_score 1 0 true 10 = 100 ∧ spec_score true 10 1 0 = 100 ∧
      calculate_score 1 0 true 0 = 150 ∧ spec_score true 0 1 0 = 150) ∧
    (calculate_score 1 157 true 10 = 509 ∧ spec_score true 10 1 157 = 510) := by
  refine ⟨rfl, calculate_score_nonneg d s c t,
    fun hs ht => calculate_score_base_eq d s t hs ht h1 h2,
    ⟨by decide, ?_, by decide, ?_⟩, ⟨by decide, ?_⟩⟩
  · simp only [spec_score]
    norm_num [show ([1, 3/2, 5/2] : List ℚ).getD (1 - 1) 0 = 1 from rfl]
  · simp only [spec_score]
    norm_num [show ([1, 3/2, 5/2] : List ℚ).getD (1 - 1) 0 = 1 from rfl]
  · simp only [spec_score]
    norm_num [show ([1, 3/2, 5/2] : List ℚ).getD (1 - 1) 0 = 1 from rfl]

/-- Witness for the scoring-properties theorem at difficulty 2, streak 1, a
correct answer in 6 seconds. -/
theorem calculate_score_fp_properties_witness :
    calculate_score 2 1 false 6 = 0 ∧
    0 ≤ calculate_score 2 1 true 6 ∧
    (1 < 3 → (5 : ℚ) ≤ 6 → calculate_score 2 1 true 6 = spec_score true 6 2 1) ∧
    (calculate_score 1 0 true 10 = 100 ∧ spec_score true 10 1 0 = 100 ∧
      calculate_score 1 0 true 0 = 150 ∧ spec_score true 0 1 0 = 150) ∧
    (calculate_score 1 157 true 10 = 509 ∧ spec_score true 10 1 157 = 510) :=
  calculate_score_fp_properties 2 1 true 6 (by decide) (by decide)

/-- C3: in adaptive mode, `adjust_difficulty` makes no decision with fewer
than 3 recorded results; with at least 3 it sets the difficulty from the
most recent 3 results (increase clamped at 3 iff all 3 correct and average
time below 5, decrease clamped at 1 iff at most 1 correct, unchanged
otherwise) and returns a transition message exactly when the resulting
difficulty differs from the prior value. -/
theorem adjust_difficulty_postcondition (g : MathGame)
    (h : g.adaptive_difficulty = true) :
    (g.results.length < 3 → adjust_difficulty g = (none, g)) ∧
    (3 ≤ g.results.length →
      (adjust_difficulty g).2.difficulty =
        (if ((g.results.drop (g.results.length - 3)).filter
              (fun r => r.correct)).length = 3 ∧
            ((g.results.drop (g.results.length - 3)).map
              (fun r => r.time_taken)).sum / 3 < 5 then
          min 3 (g.difficulty + 1)
        else if ((g.results.drop (g.results.length - 3)).filter
              (fun r => r.correct)).length ≤ 1 then
          max 1 (g.difficulty - 1)
        else g.difficulty) ∧
      ((adjust_difficulty g).1.isSome = true ↔
        (adjust_difficulty g).2.difficulty ≠ g.difficulty)) := by
  constructor
  · intro hlt
    simp only [adjust_difficulty]
    rw [if_neg (by rw [h]; decide), if_pos (by rw [List.length_drop]; omega)]
  · intro hge
    have h3 : g.results.length - (g.results.length - 3) = 3 := by omega
    simp only [adjust_difficulty]
    rw [if_neg (by rw [h]; decide), if_neg (by rw [List.length_drop, h3]; omega),
      List.length_drop, h3]
    simp only [Nat.cast_ofNat]
    constructor
    · split_ifs <;> rfl
    · split_ifs with h1 h2 h3' <;> simp <;> omega

/-- Witness for the adaptive-controller postcondition: a fresh adaptive
session with no recorded results gets no decision. -/
theorem adjust_difficulty_postcondition_witness :
    adjust_difficulty { MathGame.init with adaptive_difficulty := true } =
      (none, { MathGame.init with adaptive_difficulty := true }) :=
  (adjust_difficulty_postcondition
    { MathGame.init with adaptive_difficulty := true } rfl).1 (by decide)

/-- C8: every reachable session state has difficulty in {1,2,3}: `setup_game`
stores choices 1..3 directly with adaptive mode off, stores difficulty 1 with
adaptive mode on for choice 4, and `adjust_difficulty` clamping preserves the
range thereafter. -/
theorem difficulty_always_valid :
    (∀ g : MathGame, Reachable g →
      g.difficulty = 1 ∨ g.difficulty = 2 ∨ g.difficulty = 3) ∧
    (∀ (g : MathGame) (op ch r : Nat) (tm : Bool) (tl : ℚ), 1 ≤ ch → ch < 4 →
      (setup_game g op ch r tm tl).difficulty = ch ∧
      (setup_game g op ch r tm tl).adaptive_difficulty = false) ∧
    (∀ (g : MathGame) (op r : Nat) (tm : Bool) (tl : ℚ),
      (setup_game g op 4 r tm tl).difficulty = 1 ∧
      (setup_game g op 4 r tm tl).adaptive_difficulty = true) ∧
    (∀ g : MathGame, (g.difficulty = 1 ∨ g.difficulty = 2 ∨ g.difficulty = 3) →
      ((adjust_difficulty g).2.difficulty = 1 ∨
        (adjust_difficulty g).2.difficulty = 2 ∨
        (adjust_difficulty g).2.difficulty = 3)) := by
  have hadj : ∀ g : MathGame,
      (g.difficulty = 1 ∨ g.difficulty = 2 ∨ g.difficulty = 3) →
      ((adjust_difficulty g).2.difficulty = 1 ∨
        (adjust_difficulty g).2.difficulty = 2 ∨
        (adjust_difficulty g).2.difficulty = 3) := by
    intro g hg
    rcases adjust_difficulty_cases g with hc | hc | hc <;> rw [hc] <;> omega
  refine ⟨?_, ?_, ?_, hadj⟩
  · intro g hr
    induction hr with
    | refl => exact Or.inl rfl
    | tail hab hstep ih =>
      cases hstep with
      | setup op ch r tm tl h1 =>
        by_cases hch : ch < 4
        · simp only [setup_game]
          rw [if_pos hch]
          show ch = 1 ∨ ch = 2 ∨ ch = 3
          omega
        · simp only [setup_game]
          rw [if_neg hch]
          exact Or.inl rfl
      | add r => exact ih
      | streak b => rw [update_streak_difficulty]; exact ih
      | adjust => exact hadj _ ih
      | timed_reset => exact ih
      | round q ua ca t => rw [timed_round_step_difficulty]; exact ih
  · intro g op ch r tm tl h1 h4
    simp only [setup_game]
    rw [if_pos h4]
    exact ⟨rfl, rfl⟩
  · intro g op r tm tl
    simp only [setup_game]
    rw [if_neg (by omega)]
    exact ⟨rfl, rfl⟩

/-- Witness for the difficulty-range theorem: the state reached by selecting
the adaptive difficulty option (choice 4) from a fresh session. -/
theorem difficulty_always_valid_witness :
    (setup_game MathGame.init 1 4 10 false 60).difficulty = 1 ∨
    (setup_game MathGame.init 1 4 10 false 60).difficulty = 2 ∨
    (setup_game MathGame.init 1 4 10 false 60).difficulty = 3 :=
  difficulty_always_valid.1 _
    (Relation.ReflTransGen.single
      (GameStep.setup MathGame.init 1 4 10 false 60 (by decide)))

/-- C2 counterexample: in the timed-challenge round pipeline the score is
computed before the streak update.  At streak 2, a correct answer at 10
seconds and difficulty 1 scores 100 (no streak bonus), while the claimed
post-increment convention (streak 3) would give 125. -/
theorem timed_round_pre_increment_counterexample :
    (timed_round_step { MathGame.init with streak_count := 2 } "3 + 4"
        (some "7") "7" 10).2.1 = 100 ∧
    calculate_score 1 3 true 10 = 125 ∧
    (100 : Int) ≠ 125 := by
  refine ⟨by decide, by decide, by decide⟩

/-- C2 (amended): for every round processed by the timed-challenge pipeline,
the Scoring Calculator is invoked with the pre-increment streak value (the
streak counter is incremented only after the score is computed), so the
streak bonus is first earned on a correct answer given when the streak
already stood at 3: at difficulty 1 and 10 seconds, pre-streak 2 scores 100
and pre-streak 3 scores 125. -/
theorem timed_round_score_pre_increment_streak (g : MathGame) (q : String)
    (ua : Option String) (ca : String) (t : ℚ) :
    (timed_round_step g q ua ca t).2.1 =
      calculate_score g.difficulty g.streak_count (check_answer ua ca) t ∧
    (check_answer ua ca = true →
      (timed_round_step g q ua ca t).1.streak_count = g.streak_count + 1) ∧
    calculate_score 1 2 true 10 = 100 ∧
    calculate_score 1 3 true 10 = 125 := by
  refine ⟨rfl, ?_, by decide, by decide⟩
  · intro hcorr
    simp only [timed_round_step]
    rw [hcorr]
    rfl

/-- Witness for the pre-increment-streak theorem on a concrete correct
round. -/
theorem timed_round_score_pre_increment_streak_witness :
    (timed_round_step MathGame.init "1 + 1" (some "2") "2" 10).2.1 =
      calculate_score MathGame.init.difficulty MathGame.init.streak_count
        (check_answer (some "2") "2") 10 ∧
    (timed_round_step MathGame.init "1 + 1" (some "2") "2" 10).1.streak_count =
      MathGame.init.streak_count + 1 :=
  ⟨(timed_round_score_pre_increment_streak MathGame.init "1 + 1" (some "2")
      "2" 10).1,
   (timed_round_score_pre_increment_streak MathGame.init "1 + 1" (some "2")
      "2" 10).2.1 (by decide)⟩

/-- C1 counterexample: the claim asserts that mixed decimal/fraction pairs
are judged by the tolerance `|a-b| < 1e-3` and in particular that
`compare("0.5001","1/2")` is true (difference 1e-4); `check_answer` in fact
returns false for this pair, because the exact Fraction-from-any-format
comparison decides first. -/
theorem mixed_tolerance_counterexample :
    check_answer (some "0.5001") "1/2" = false := by decide

/-- C1 (amended): when the trimmed user answer has no slash, the canonical
answer has a slash, the user string parses as a float and the canonical
string parses as a fraction, `check_answer` decides by exact equality of
the parsed values (the decimal rounded to the nearest binary double against
the exact fraction), not by the 1e-3 tolerance; hence "0.5" matches "1/2"
but "0.5001" and "0.51" do not, and "0.1" does not match "1/10" (the double
nearest 0.1 is not 1/10). -/
theorem mixed_decimal_fraction_exact (u c : String) (x y : ℚ)
    (hu : hasSlash (pyStripL u.toList) = false)
    (hc : hasSlash (pyStripL c.toList) = true)
    (hx : pyFloatL? (pyStripL u.toList) = some x)
    (hy : fracStrL? (pyStripL c.toList) = some y) :
    check_answer (some u) c = decide (x = y) ∧
    check_answer (some "0.5") "1/2" = true ∧
    check_answer (some "0.5001") "1/2" = false ∧
    check_answer (some "0.51") "1/2" = false ∧
    check_answer (some "0.1") "1/10" = false := by
  refine ⟨?_, by decide, by decide, by decide, by decide⟩
  have hne : pyStripL u.toList ≠ pyStripL c.toList := by
    intro he
    rw [he, hc] at hu
    simp at hu
  have ha : stepA (pyStripL u.toList) (pyStripL c.toList) = none := by
    rw [stepA, if_neg]
    rw [hu]
    simp
  have hb : stepB (pyStripL u.toList) (pyStripL c.toList) =
      some (decide (x = y)) := by
    simp only [stepB, hu, hc, Bool.false_eq_true, if_false, if_true, hx, hy]
  exact checkL_of_stepB u.toList c.toList _ hne ha hb

/-- Witness for the exact mixed-comparison theorem at "0.25" versus "1/4"
(0.25 is an exact double). -/
theorem mixed_decimal_fraction_exact_witness :
    check_answer (some "0.25") "1/4" = decide (mkRat 1 4 = mkRat 1 4) ∧
    check_answer (some "0.5") "1/2" = true ∧
    check_answer (some "0.5001") "1/2" = false ∧
    check_answer (some "0.51") "1/2" = false ∧
    check_answer (some "0.1") "1/10" = false :=
  mixed_decimal_fraction_exact "0.25" "1/4" (mkRat 1 4) (mkRat 1 4)
    (by decide) (by decide) (by decide) (by decide)

/-- C7 counterexample: the claim says a string with two or more `/`
characters is judged incorrect; `check_answer` in fact judges "1/2/3"
against "1/2" as correct, because the float-tolerance fallback divides the
floats of the first two `/`-separated parts. -/
theorem multi_slash_counterexample :
    check_answer (some "1/2/3") "1/2" = true := by decide

/-- C7 (amended): `check_answer` always returns a boolean: the `None`
sentinel is judged incorrect; whenever all three parse strategies fall
through, the result is exactly trimmed raw string equality; non-numeric text
and zero-denominator fractions are judged incorrect against a numeric
canonical answer.  A multi-slash answer, however, is not necessarily judged
incorrect: its first two `/`-separated parts are divided as floats, so
"1/2/3" matches "1/2". -/
theorem check_answer_never_raises (u c : String)
    (ha : stepA (pyStripL u.toList) (pyStripL c.toList) = none)
    (hb : stepB (pyStripL u.toList) (pyStripL c.toList) = none)
    (hc : stepC (pyStripL u.toList) (pyStripL c.toList) = none) :
    check_answer none c = false ∧
    check_answer (some u) c = decide (pyStripL u.toList = pyStripL c.toList) ∧
    check_answer (some "abc") "5" = false ∧
    check_answer (some "1/0") "1/2" = false ∧
    check_answer (some "1/2/3") "1/2" = true :=
  ⟨rfl, checkL_all_fail u.toList c.toList ha hb hc, by decide, by decide,
    by decide⟩

/-- Witness for the totality and fallback theorem at the unparsable pair
"abc" versus "xyz". -/
theorem check_answer_never_raises_witness :
    check_answer none "xyz" = false ∧
    check_answer (some "abc") "xyz" =
      decide (pyStripL "abc".toList = pyStripL "xyz".toList) ∧
    check_answer (some "abc") "5" = false ∧
    check_answer (some "1/0") "1/2" = false ∧
    check_answer (some "1/2/3") "1/2" = true :=
  check_answer_never_raises "abc" "xyz" (by decide) (by decide) (by decide)

theorem pyStripL_render_pair (i j : Int) :
    pyStripL (renderInt i ++ '/' :: renderInt j) =
      renderInt i ++ '/' :: renderInt j := by
  apply pyStripL_eq_self
  intro ch hch
  rcases List.mem_append.mp hch with hm | hm
  · exact (renderInt_chars i ch hm).1
  · rcases List.mem_cons.mp hm with rfl | hm2
    · rfl
    · exact (renderInt_chars j ch hm2).1

theorem stepA_render_pair (p q a b : Int) (hq : q ≠ 0) (hb : b ≠ 0) :
    stepA (renderInt p ++ '/' :: renderInt q) (renderInt a ++ '/' :: renderInt b) =
      some (decide (Rat.divInt p q = Rat.divInt a b)) := by
  rw [stepA, if_pos (by rw [hasSlash_append_slash, hasSlash_append_slash]; rfl),
    splitOnSlash_append _ _ (hasSlash_renderInt p),
    splitOnSlash_no_slash _ (hasSlash_renderInt q),
    splitOnSlash_append _ _ (hasSlash_renderInt a),
    splitOnSlash_no_slash _ (hasSlash_renderInt b)]
  simp only [fracOfParts2?, pyIntL?_renderInt]
  rw [if_neg hq, if_neg hb]

/-- C5: for all integers p, q, r with q and r nonzero, the strings "p/q" and
"(p*r)/(q*r)" are judged equivalent: both sides split into two integer
substrings and are compared by exact rational equality, with no
floating-point conversion, so unreduced fractions compare equal. -/
theorem fraction_scale_invariance (p q r : Int) (hq : q ≠ 0) (hr : r ≠ 0) :
    check_answer (some ⟨renderInt p ++ '/' :: renderInt q⟩)
      ⟨renderInt (p * r) ++ '/' :: renderInt (q * r)⟩ = true := by
  show checkL (renderInt p ++ '/' :: renderInt q)
    (renderInt (p * r) ++ '/' :: renderInt (q * r)) = true
  apply checkL_of_stepA_true
  rw [pyStripL_render_pair p q, pyStripL_render_pair (p * r) (q * r),
    stepA_render_pair p q (p * r) (q * r) hq (mul_ne_zero hq hr)]
  have hval : Rat.divInt p q = Rat.divInt (p * r) (q * r) := by
    rw [Rat.divInt_eq_div, Rat.divInt_eq_div]
    have hq' : ((q : ℚ)) ≠ 0 := Int.cast_ne_zero.mpr hq
    have hqr' : (((q * r : Int) : ℚ)) ≠ 0 :=
      Int.cast_ne_zero.mpr (mul_ne_zero hq hr)
    rw [div_eq_div_iff hq' hqr']
    push_cast
    ring
  rw [hval, decide_eq_true (Eq.refl (Rat.divInt (p * r) (q * r)))]

/-- Witness for fraction scale invariance at p = 1, q = 2, r = 2 (the spec
example "2/4" versus "1/2" with the sides swapped to match f-string order). -/

theorem fraction_scale_invariance_witness :
    check_answer (some ⟨renderInt 1 ++ '/' :: renderInt 2⟩)
      ⟨renderInt (1 * 2) ++ '/' :: renderInt (2 * 2)⟩ = true :=
  fraction_scale_invariance 1 2 2 (by decide) (by decide)
